import Mathlib

/-
Verification of the core of a ROS 2 client library (action protocol in
src/action.rs, node / spinner event loop in src/node.rs) against its
natural-language specification.  The Rust code is shallowly embedded:
identifier-like data (GUIDs, goal ids, timestamps, sequence numbers) are
modelled as natural numbers, BTreeMap / BTreeSet as association lists /
duplicate-free lists, and the effectful DDS operations (send_response,
publish) as explicit transcripts of emitted messages.
-/

set_option autoImplicit false

namespace Ros2Client

/-- GUID of a DDS reader or writer (16 bytes in the source, modelled as Nat). -/
abbrev GUID := Nat

/-- Goal identifier: a 16-byte UUID in the source, modelled as Nat. -/
abbrev GoalId := Nat

/-- Sentinel goal id meaning "all goals" (GoalId::ZERO in action_msgs). -/
def GoalId.ZERO : GoalId := 0

/-- Timestamp (builtin_interfaces::Time), modelled as Nat. -/
abbrev Time := Nat

/-- Time::ZERO sentinel. -/
def Time.ZERO : Time := 0

/-- Correlation id of an outstanding service request:
(writer GUID, 8-byte sequence number), as in service/request_id.rs. -/
abbrev RmwRequestId := GUID × Nat

/-- Modelled from the spec: GoalStatusEnum of the action_msgs crate
(its source is not under src/); the spec lists the members
\x7bUnknown, Accepted, Executing, Canceling, Succeeded, Canceled, Aborted\x7d. -/
inductive GoalStatusEnum where
  | unknown
  | accepted
  | executing
  | canceling
  | succeeded
  | canceled
  | aborted
deriving DecidableEq, Repr

/-- SendGoalRequest\x7bgoal_id, goal\x7d from src/action.rs. -/
structure SendGoalRequest (G : Type) where
  goal_id : GoalId
  goal : G
deriving DecidableEq, Repr

/-- SendGoalResponse\x7baccepted, stamp\x7d from src/action.rs. -/
structure SendGoalResponse where
  accepted : Bool
  stamp : Time
deriving DecidableEq, Repr

/-- Modelled from the spec: GoalInfo\x7bgoal_id, stamp\x7d of the action_msgs
crate (its source is not under src/). -/
structure GoalInfo where
  goal_id : GoalId
  stamp : Time
deriving DecidableEq, Repr

/-- Modelled from the spec: CancelGoalRequest\x7bgoal_info\x7d of the
action_msgs crate (its source is not under src/). -/
structure CancelGoalRequest where
  goal_info : GoalInfo
deriving DecidableEq, Repr

/-- FeedbackMessage\x7bgoal_id, feedback\x7d from src/action.rs. -/
structure FeedbackMessage (F : Type) where
  goal_id : GoalId
  feedback : F
deriving DecidableEq, Repr

/-- DDS-layer error (payload irrelevant to the embedded logic). -/
abbrev DDSErr := Unit

/-- GoalError from src/action.rs. -/
inductive GoalError where
  | noSuchGoal
  | wrongGoalState
  | ddsError
deriving DecidableEq, Repr

/-- NewGoalHandle: goal id plus the request id of the pending send-goal reply. -/
structure NewGoalHandle where
  goal_id : GoalId
  req_id : RmwRequestId
deriving DecidableEq, Repr

/-- AcceptedGoalHandle (inner goal id only). -/
structure AcceptedGoalHandle where
  goal_id : GoalId
deriving DecidableEq, Repr

/-! ### ActionClient (src/action.rs) -/

/-- ActionClient::cancel_goal_raw: builds the CancelGoalRequest payload
sent on the cancel service. -/
def cancel_goal_raw (goal_id : GoalId) (timestamp : Time) : CancelGoalRequest :=
  { goal_info := { goal_id := goal_id, stamp := timestamp } }

/-- ActionClient::cancel_goal. -/
def cancel_goal (goal_id : GoalId) : CancelGoalRequest :=
  cancel_goal_raw goal_id Time.ZERO

/-- ActionClient::cancel_all_goals_before. -/
def cancel_all_goals_before (timestamp : Time) : CancelGoalRequest :=
  cancel_goal_raw GoalId.ZERO timestamp

/-- ActionClient::cancel_all_goals. -/
def cancel_all_goals : CancelGoalRequest :=
  cancel_goal_raw GoalId.ZERO Time.ZERO

/-- ActionClient::receive_goal_response: drain the pending reply queue,
return the first reply whose correlation id matches, drop mismatches,
Ok none when the queue is empty; an error from the underlying take is
propagated. -/
def receive_goal_response (req_id : RmwRequestId)
    (pending : List (Except DDSErr (RmwRequestId × SendGoalResponse))) :
    Except DDSErr (Option SendGoalResponse) :=
  match pending with
  | [] => .ok none
  | .error e :: _ => .error e
  | .ok (incoming, resp) :: rest =>
      if incoming = req_id then .ok (some resp)
      else receive_goal_response req_id rest

/-- ActionClient::receive_feedback: drain the feedback subscription,
return the first feedback whose goal id matches, drop mismatches,
Ok none when no sample is pending. -/
def receive_feedback {F : Type} (goal_id : GoalId)
    (pending : List (Except DDSErr (FeedbackMessage F))) :
    Except DDSErr (Option F) :=
  match pending with
  | [] => .ok none
  | .error e :: _ => .error e
  | .ok fb :: rest =>
      if fb.goal_id = goal_id then .ok (some fb.feedback)
      else receive_feedback goal_id rest

/-! ### AsyncActionServer goals map (src/action.rs)

The BTreeMap<GoalId, (GoalStatusEnum, GoalType)> is embedded as an
association list with duplicate-free keys. -/

/-- The goals map of an AsyncActionServer. -/
abbrev Goals (G : Type) := List (GoalId × GoalStatusEnum × G)

/-- Lookup in the goals map (BTreeMap::get / Entry discrimination). -/
def glookup {G : Type} (goals : Goals G) (k : GoalId) : Option (GoalStatusEnum × G) :=
  match goals with
  | [] => none
  | (k', e) :: rest => if k' = k then some e else glookup rest k

/-- Overwrite the status of an existing entry
(o.into_mut().0 = newStatus in the source). -/
def setStatus {G : Type} (goals : Goals G) (k : GoalId) (st : GoalStatusEnum) : Goals G :=
  match goals with
  | [] => []
  | e :: rest => (if e.1 = k then (e.1, st, e.2.2) else e) :: setStatus rest k st

/-- GoalStatusArray content: the entire roster of (goal id, status) pairs. -/
def statusArrayOf {G : Type} (goals : Goals G) : List (GoalId × GoalStatusEnum) :=
  goals.map (fun e => (e.1, e.2.1))

/-- Observable DDS effects of an action-server operation, in emission order. -/
inductive ServerEffect where
  | sendGoalResponse (req_id : RmwRequestId) (resp : SendGoalResponse)
  | publishStatusArray (arr : List (GoalId × GoalStatusEnum))
deriving DecidableEq, Repr

/-- AsyncActionServer::receive_new_goal: drain the incoming send-goal
request queue; the first request with a fresh goal id is inserted with
status Unknown and a handle is returned together with the unconsumed
remainder of the queue; a request whose goal id is already present is
logged and discarded, leaving the map unchanged.  An exhausted queue
(the Rust future would keep awaiting) yields no handle. -/
def receive_new_goal {G : Type} (goals : Goals G)
    (queue : List (RmwRequestId × SendGoalRequest G)) :
    Option NewGoalHandle × Goals G × List (RmwRequestId × SendGoalRequest G) :=
  match queue with
  | [] => (none, goals, [])
  | (req_id, goal_request) :: rest =>
      match glookup goals goal_request.goal_id with
      | none =>
          (some { goal_id := goal_request.goal_id, req_id := req_id },
           goals ++ [(goal_request.goal_id, GoalStatusEnum.unknown, goal_request.goal)],
           rest)
      | some _ => receive_new_goal goals rest

/-- Modelled from the spec: publish_statuses is left unimplemented in the
source (its body is the todo macro); the spec requires that on every state
change the server republish the full GoalStatusArray.  Embedded as the
effect carrying the entire roster. -/
def publish_statuses {G : Type} (goals : Goals G) : ServerEffect :=
  .publishStatusArray (statusArrayOf goals)

/-- AsyncActionServer::accept_goal.  `now` stands for Time::now(),
`sendOk` for whether the DDS-level send_response succeeds.  Returns the
result, the new goals map, and the transcript of emitted effects. -/
def accept_goal {G : Type} (now : Time) (sendOk : Bool) (goals : Goals G)
    (handle : NewGoalHandle) :
    Except GoalError AcceptedGoalHandle × Goals G × List ServerEffect :=
  match glookup goals handle.goal_id with
  | none => (.error .noSuchGoal, goals, [])
  | some (GoalStatusEnum.unknown, _goal) =>
      let goals' := setStatus goals handle.goal_id .accepted
      if sendOk then
        (.ok { goal_id := handle.goal_id }, goals',
         [publish_statuses goals',
          .sendGoalResponse handle.req_id { accepted := true, stamp := now }])
      else
        (.error .ddsError, goals', [publish_statuses goals'])
  | some (_, _goal) => (.error .wrongGoalState, goals, [])

/-- AsyncActionServer::reject_goal.  The entry is left in the map: the
source neither removes it nor changes its status, and deliberately does
not publish a status update. -/
def reject_goal {G : Type} (now : Time) (sendOk : Bool) (goals : Goals G)
    (handle : NewGoalHandle) :
    Except GoalError Unit × Goals G × List ServerEffect :=
  match glookup goals handle.goal_id with
  | none => (.error .noSuchGoal, goals, [])
  | some (GoalStatusEnum.unknown, _goal) =>
      if sendOk then
        (.ok (), goals,
         [.sendGoalResponse handle.req_id { accepted := false, stamp := now }])
      else
        (.error .ddsError, goals, [])
  | some (_, _goal) => (.error .wrongGoalState, goals, [])

/-- AsyncActionServer::receive_cancel_request as written in the source:
it ignores the server state and the pending cancel requests and yields
Ok of the empty collection. -/
def receive_cancel_request {G : Type} (_goals : Goals G) : Except DDSErr (List GoalId) :=
  .ok []

/-! ### Spinner event handling (src/node.rs)

BTreeMap<GUID, BTreeSet<GUID>> is embedded as an association list from
GUID to a duplicate-free list of GUIDs. -/

/-- One map of matched remote entities. -/
abbrev MatchMap := List (GUID × List GUID)

/-- Lookup the matched set of a local entity (empty when the key is absent). -/
def matchedOf (m : MatchMap) (k : GUID) : List GUID :=
  match m with
  | [] => []
  | (k', s) :: rest => if k' = k then s else matchedOf rest k

/-- BTreeSet::insert on a value set. -/
def setInsert (s : List GUID) (v : GUID) : List GUID :=
  if v ∈ s then s else s ++ [v]

/-- entry(k).and_modify(insert v).or_insert(\x7bv\x7d) on a MatchMap. -/
def mapInsertVal (m : MatchMap) (k v : GUID) : MatchMap :=
  match m with
  | [] => [(k, [v])]
  | (k', s) :: rest =>
      if k' = k then (k', setInsert s v) :: rest
      else (k', s) :: mapInsertVal rest k v

/-- Remove a GUID from every value set of a MatchMap (the ReaderLost /
WriterLost handling loops). -/
def mapRemoveEverywhere (m : MatchMap) (g : GUID) : MatchMap :=
  match m with
  | [] => []
  | (k, s) :: rest => (k, s.filter (fun x => x ≠ g)) :: mapRemoveEverywhere rest g

/-- DomainParticipantStatusEvent variants the spinner reacts to; `other`
stands for every remaining variant (handled by the catch-all arm). -/
inductive DPStatusEvent where
  | remoteReaderMatched (local_writer remote_reader : GUID)
  | remoteWriterMatched (local_reader remote_writer : GUID)
  | readerLost (guid : GUID)
  | writerLost (guid : GUID)
  | other
deriving DecidableEq, Repr

/-- The two shared maps the spinner maintains. -/
structure SpinnerMaps where
  readers_to_remote_writers : MatchMap
  writers_to_remote_readers : MatchMap
deriving DecidableEq, Repr

/-- The dp_status_event arm of Spinner::spin: update the remote
reader/writer databases. -/
def handleDPStatusEvent (s : SpinnerMaps) (ev : DPStatusEvent) : SpinnerMaps :=
  match ev with
  | .remoteReaderMatched local_writer remote_reader =>
      { s with writers_to_remote_readers :=
          mapInsertVal s.writers_to_remote_readers local_writer remote_reader }
  | .remoteWriterMatched local_reader remote_writer =>
      { s with readers_to_remote_writers :=
          mapInsertVal s.readers_to_remote_writers local_reader remote_writer }
  | .readerLost guid =>
      { s with writers_to_remote_readers :=
          mapRemoveEverywhere s.writers_to_remote_readers guid }
  | .writerLost guid =>
      { s with readers_to_remote_writers :=
          mapRemoveEverywhere s.readers_to_remote_writers guid }
  | .other => s

/-! ### Spinner broadcast and Node (src/node.rs) -/

/-- A payload-irrelevant NodeEvent (DDS or ROS discovery event). -/
abbrev NodeEvent := Nat

/-- One async_channel sender endpoint as the broadcast sees it: whether
the receiver side is closed, the bounded capacity, and the queued
events. -/
structure Chan where
  closed : Bool
  cap : Nat
  buf : List NodeEvent
deriving DecidableEq, Repr

instance : Inhabited Chan := ⟨⟨false, 0, []⟩⟩

/-- async_channel try_send: a closed channel rejects (and is later
removed), a full one drops the event, otherwise the event is enqueued. -/
def trySendUpd (ev : NodeEvent) (c : Chan) : Chan :=
  if c.closed then c
  else if c.buf.length < c.cap then { c with buf := c.buf ++ [ev] }
  else c

/-- Rust Vec::swap_remove(i): move the last element into slot i and pop. -/
def swapRemove {α : Type} (l : List α) (i : Nat) : List α :=
  match l.getLast? with
  | none => l
  | some last => (l.set i last).dropLast

/-- Indices of listeners whose try_send reported Closed, in the ascending
order the broadcast loop collects them. -/
def closedIdxs (senders : List Chan) : List Nat :=
  (List.range senders.length).filter (fun i => (senders.getD i default).closed)

/-- Spinner::send_status_event: try a non-blocking send on every listener
channel, then swap-remove the closed ones in descending index order. -/
def send_status_event (ev : NodeEvent) (senders : List Chan) : List Chan :=
  (closedIdxs senders).reverse.foldl swapRemove (senders.map (trySendUpd ev))

/-- Node::status_receiver: push a fresh bounded(8) sender onto the
listener list and hand the receiver end back; result is the new listener
list together with the channel created. -/
def status_receiver (senders : List Chan) : List Chan × Chan :=
  (senders ++ [{ closed := false, cap := 8, buf := [] }],
   { closed := false, cap := 8, buf := [] })

/-- The fields of Node that Node::spinner reads or writes.  The Arc-shared
maps are carried by value; Arc::clone is embedded as the Spinner holding
fields equal to the Node's. -/
structure NodeState where
  stop_spin_sender : Option Unit
  readers_to_remote_writers : MatchMap
  writers_to_remote_readers : MatchMap
  status_event_senders : List Chan
deriving DecidableEq, Repr

/-- The Spinner fields relevant to sharing (ros_context and the stop
receiver are omitted). -/
structure SpinnerState where
  readers_to_remote_writers : MatchMap
  writers_to_remote_readers : MatchMap
  status_event_senders : List Chan
deriving DecidableEq, Repr

/-- Node::spinner: the first call installs the stop-signal sender and
returns a Spinner sharing the node's maps; a later call hits the
panic branch, embedded as `none`. -/
def Node.spinner (n : NodeState) : Option (SpinnerState × NodeState) :=
  if n.stop_spin_sender.isSome then none
  else
    some ({ readers_to_remote_writers := n.readers_to_remote_writers,
            writers_to_remote_readers := n.writers_to_remote_readers,
            status_event_senders := n.status_event_senders },
          { n with stop_spin_sender := some () })

/-! ### Helper lemmas -/

theorem glookup_setStatus {G : Type} (goals : Goals G) (k : GoalId) (st : GoalStatusEnum) :
    glookup (setStatus goals k st) k = (glookup goals k).map (fun e => (st, e.2)) := by
  induction goals with
  | nil => rfl
  | cons e rest ih =>
      rcases e with ⟨k', st', g⟩
      simp only [setStatus]
      split
      · next h =>
          subst h
          simp [glookup]
      · next h =>
          simp [glookup, h, ih]

theorem glookup_eq_none_iff {G : Type} (goals : Goals G) (k : GoalId) :
    glookup goals k = none ↔ k ∉ goals.map Prod.fst := by
  induction goals with
  | nil => simp [glookup]
  | cons e rest ih =>
      by_cases h : e.1 = k
      · simp [glookup, h]
      · simp [glookup, h, ih, Ne.symm h]

/-! ### Claim theorems: action server -/

/-- Concrete scenario of claim C2: three goals accepted by the server
(their acceptance timestamps are not even recorded in the goals map). -/
def cancelScenarioGoals : Goals Nat :=
  [(1, GoalStatusEnum.accepted, 10),
   (2, GoalStatusEnum.accepted, 20),
   (3, GoalStatusEnum.accepted, 30)]

/-- C2: with goals G1, G2, G3 accepted and a cancel_all_goals_before
request pending, the source's receive_cancel_request yields the empty
collection, not \x7bG1, G2\x7d: the function ignores its state and the
incoming cancel requests entirely. -/
theorem receive_cancel_request_yields_empty :
    receive_cancel_request cancelScenarioGoals = Except.ok ([] : List GoalId) := by
  rfl

/-- C1 counterexample: rejecting goal 1 (present with status Unknown)
succeeds and sends the accepted = false response, but the goals map after
the call still contains goal 1 — the record is not discarded, so the id
is not free for reuse. -/
theorem reject_goal_keeps_record_counterexample :
    reject_goal (G := Nat) 5 true [(1, GoalStatusEnum.unknown, 42)]
        { goal_id := 1, req_id := (3, 7) } =
      (Except.ok (), [(1, GoalStatusEnum.unknown, 42)],
       [ServerEffect.sendGoalResponse (3, 7) { accepted := false, stamp := 5 }])
    ∧ glookup (G := Nat) [(1, GoalStatusEnum.unknown, 42)] 1 ≠ none := by
  constructor
  · rfl
  · simp [glookup]

/-- C1 amended: for a handle whose goal id is present with status Unknown,
reject_goal sends exactly one SendGoalResponse with accepted = false
correlated to the handle's request id, publishes no status update, and
leaves the goals map unchanged (the record stays, with status Unknown,
so the id is not free for reuse). -/
theorem reject_goal_spec {G : Type} (now : Time) (goals : Goals G)
    (handle : NewGoalHandle) (g : G)
    (hlook : glookup goals handle.goal_id = some (GoalStatusEnum.unknown, g)) :
    reject_goal now true goals handle =
      (Except.ok (), goals,
       [ServerEffect.sendGoalResponse handle.req_id { accepted := false, stamp := now }]) := by
  simp [reject_goal, hlook]

/-- C1 witness. -/
theorem reject_goal_spec_witness :
    reject_goal (G := Nat) 9 true [(4, GoalStatusEnum.unknown, 0)]
        { goal_id := 4, req_id := (1, 2) } =
      (Except.ok (), [(4, GoalStatusEnum.unknown, 0)],
       [ServerEffect.sendGoalResponse (1, 2) { accepted := false, stamp := 9 }]) :=
  reject_goal_spec 9 [(4, GoalStatusEnum.unknown, 0)] { goal_id := 4, req_id := (1, 2) } 0
    (by simp [glookup])

/-- C4: accept_goal returns NoSuchGoal when the handle's goal id is
absent, WrongGoalState when the entry's status is not Unknown, and
otherwise sets the status to Accepted, publishes the full status array,
sends the accepted = true response correlated to the handle's request id,
and returns an AcceptedGoalHandle for the same goal id. -/
theorem accept_goal_spec {G : Type} (now : Time) (goals : Goals G)
    (handle : NewGoalHandle) :
    (glookup goals handle.goal_id = none →
       ∀ sendOk, accept_goal now sendOk goals handle = (.error .noSuchGoal, goals, []))
    ∧ (∀ st g, glookup goals handle.goal_id = some (st, g) → st ≠ GoalStatusEnum.unknown →
       ∀ sendOk, accept_goal now sendOk goals handle = (.error .wrongGoalState, goals, []))
    ∧ (∀ g, glookup goals handle.goal_id = some (GoalStatusEnum.unknown, g) →
       accept_goal now true goals handle =
         (Except.ok { goal_id := handle.goal_id },
          setStatus goals handle.goal_id .accepted,
          [ServerEffect.publishStatusArray
             (statusArrayOf (setStatus goals handle.goal_id .accepted)),
           ServerEffect.sendGoalResponse handle.req_id { accepted := true, stamp := now }])
       ∧ glookup (setStatus goals handle.goal_id .accepted) handle.goal_id =
           some (GoalStatusEnum.accepted, g)) := by
  refine ⟨fun hnone sendOk => ?_, fun st g hsome hne sendOk => ?_, fun g hsome => ⟨?_, ?_⟩⟩
  · simp [accept_goal, hnone]
  · cases st <;> simp_all [accept_goal]
  · simp [accept_goal, hsome, publish_statuses]
  · simp [glookup_setStatus, hsome]

/-- C4 witness. -/
theorem accept_goal_spec_witness :
    accept_goal (G := Nat) 11 true [(6, GoalStatusEnum.unknown, 8)]
        { goal_id := 6, req_id := (0, 1) } =
      (Except.ok { goal_id := 6 },
       [(6, GoalStatusEnum.accepted, 8)],
       [ServerEffect.publishStatusArray [(6, GoalStatusEnum.accepted)],
        ServerEffect.sendGoalResponse (0, 1) { accepted := true, stamp := 11 }]) := by
  have h := (accept_goal_spec (G := Nat) 11 [(6, GoalStatusEnum.unknown, 8)]
      { goal_id := 6, req_id := (0, 1) }).2.2 8 (by simp [glookup])
  simpa [setStatus, statusArrayOf] using h.1

/-- C10: whenever accept_goal or reject_goal returns NoSuchGoal or
WrongGoalState, the goals map is exactly as before the call and no effect
(neither a SendGoalResponse nor a status publication) is emitted. -/
theorem goal_error_leaves_server_unchanged {G : Type} (now : Time) (sendOk : Bool)
    (goals : Goals G) (handle : NewGoalHandle) (e : GoalError)
    (he : e = GoalError.noSuchGoal ∨ e = GoalError.wrongGoalState) :
    ((accept_goal now sendOk goals handle).1 = .error e →
       (accept_goal now sendOk goals handle).2.1 = goals
       ∧ (accept_goal now sendOk goals handle).2.2 = [])
    ∧ ((reject_goal now sendOk goals handle).1 = .error e →
       (reject_goal now sendOk goals handle).2.1 = goals
       ∧ (reject_goal now sendOk goals handle).2.2 = []) := by
  cases hq : glookup goals handle.goal_id with
  | none => simp [accept_goal, reject_goal, hq]
  | some entry =>
      rcases entry with ⟨st, g⟩
      rcases he with he | he <;> subst he <;>
        cases st <;> cases sendOk <;> simp_all [accept_goal, reject_goal]

/-- C10 witness. -/
theorem goal_error_leaves_server_unchanged_witness :
    (accept_goal (G := Nat) 0 true [] { goal_id := 5, req_id := (0, 0) }).2.1 = []
    ∧ (accept_goal (G := Nat) 0 true [] { goal_id := 5, req_id := (0, 0) }).2.2 = [] :=
  (goal_error_leaves_server_unchanged (G := Nat) 0 true [] { goal_id := 5, req_id := (0, 0) }
      GoalError.noSuchGoal (Or.inl rfl)).1 (by simp [accept_goal, glookup])

/-! ### Claim theorems: action client -/

/-- C5: the three cancel operations send a CancelGoalRequest carrying
exactly (goal_id, Time::ZERO), (GoalId::ZERO, t) and
(GoalId::ZERO, Time::ZERO) respectively. -/
theorem cancel_requests_payload (gid : GoalId) (t : Time) :
    cancel_goal gid = { goal_info := { goal_id := gid, stamp := Time.ZERO } }
    ∧ cancel_all_goals_before t = { goal_info := { goal_id := GoalId.ZERO, stamp := t } }
    ∧ cancel_all_goals = { goal_info := { goal_id := GoalId.ZERO, stamp := Time.ZERO } } :=
  ⟨rfl, rfl, rfl⟩

/-- C3: receive_new_goal returns a handle only for a goal id not already
present (inserting it with status Unknown); every request whose goal id
is already present is discarded without a handle and without touching the
goals map; insertion of a fresh id keeps the goal ids duplicate-free, so
each goal id occurs at most once per action server. -/
theorem receive_new_goal_spec {G : Type} (goals : Goals G) :
    (∀ queue : List (RmwRequestId × SendGoalRequest G),
       (∀ q ∈ queue, glookup goals q.2.goal_id ≠ none) →
       receive_new_goal goals queue = (none, goals, []))
    ∧ (∀ (dups : List (RmwRequestId × SendGoalRequest G)) req_id
         (r : SendGoalRequest G) rest,
       (∀ q ∈ dups, glookup goals q.2.goal_id ≠ none) →
       glookup goals r.goal_id = none →
       receive_new_goal goals (dups ++ (req_id, r) :: rest) =
         (some { goal_id := r.goal_id, req_id := req_id },
          goals ++ [(r.goal_id, GoalStatusEnum.unknown, r.goal)], rest))
    ∧ (∀ queue : List (RmwRequestId × SendGoalRequest G),
       (goals.map Prod.fst).Nodup →
       (((receive_new_goal goals queue).2.1).map Prod.fst).Nodup) := by
  refine ⟨?_, ?_, ?_⟩
  · intro queue hdup
    induction queue with
    | nil => rfl
    | cons q rest ih =>
        have hq := hdup q (List.mem_cons_self q rest)
        cases hlook : glookup goals q.2.goal_id with
        | none => exact absurd hlook hq
        | some e =>
            simpa [receive_new_goal, hlook] using
              ih (fun x hx => hdup x (List.mem_cons_of_mem q hx))
  · intro dups req_id r rest hdup hfresh
    induction dups with
    | nil => simp [receive_new_goal, hfresh]
    | cons q dtl ih =>
        have hq := hdup q (List.mem_cons_self q dtl)
        cases hlook : glookup goals q.2.goal_id with
        | none => exact absurd hlook hq
        | some e =>
            simpa [receive_new_goal, hlook] using
              ih (fun x hx => hdup x (List.mem_cons_of_mem q hx))
  · intro queue hnd
    induction queue with
    | nil => simpa [receive_new_goal] using hnd
    | cons q rest ih =>
        cases hlook : glookup goals q.2.goal_id with
        | none =>
            have hnotmem : q.2.goal_id ∉ goals.map Prod.fst :=
              (glookup_eq_none_iff goals q.2.goal_id).mp hlook
            simp [receive_new_goal, hlook, List.nodup_append, hnd, hnotmem]
        | some e => simpa [receive_new_goal, hlook] using ih

/-- C3 witness: a duplicate of goal 1 is discarded, then goal 2 is
admitted with status Unknown. -/
theorem receive_new_goal_spec_witness :
    receive_new_goal (G := Nat) [(1, GoalStatusEnum.accepted, 5)]
        [((0, 0), { goal_id := 1, goal := 6 }), ((0, 1), { goal_id := 2, goal := 7 })] =
      (some { goal_id := 2, req_id := (0, 1) },
       [(1, GoalStatusEnum.accepted, 5), (2, GoalStatusEnum.unknown, 7)], []) :=
  (receive_new_goal_spec (G := Nat) [(1, GoalStatusEnum.accepted, 5)]).2.1
    [((0, 0), { goal_id := 1, goal := 6 })] (0, 1) { goal_id := 2, goal := 7 } []
    (by simp [glookup]) (by simp [glookup])

/-- C6: both poll-style receives drain their pending queue: they return
Ok (some _) on the first sample whose id matches the argument, discard
every non-matching sample and continue, and return Ok none when no sample
is pending (in particular when all pending samples mismatched). -/
theorem receive_drain_spec {F : Type} (req_id : RmwRequestId) (goal_id : GoalId) :
    (receive_goal_response req_id [] = .ok none)
    ∧ (∀ misses resp rest,
       (∀ s ∈ misses, ∃ i r, s = Except.ok (i, r) ∧ i ≠ req_id) →
       receive_goal_response req_id (misses ++ Except.ok (req_id, resp) :: rest) =
         .ok (some resp))
    ∧ (∀ pending, (∀ s ∈ pending, ∃ i r, s = Except.ok (i, r) ∧ i ≠ req_id) →
       receive_goal_response req_id pending = .ok none)
    ∧ (receive_feedback (F := F) goal_id [] = .ok none)
    ∧ (∀ misses (fb : FeedbackMessage F) rest, fb.goal_id = goal_id →
       (∀ s ∈ misses, ∃ m, s = Except.ok m ∧ m.goal_id ≠ goal_id) →
       receive_feedback goal_id (misses ++ Except.ok fb :: rest) = .ok (some fb.feedback))
    ∧ (∀ pending : List (Except DDSErr (FeedbackMessage F)),
       (∀ s ∈ pending, ∃ m, s = Except.ok m ∧ m.goal_id ≠ goal_id) →
       receive_feedback goal_id pending = .ok none) := by
  refine ⟨rfl, ?_, ?_, rfl, ?_, ?_⟩
  · intro misses resp rest hmiss
    induction misses with
    | nil => simp [receive_goal_response]
    | cons s tl ih =>
        obtain ⟨i, r, rfl, hne⟩ := hmiss s (List.mem_cons_self s tl)
        simpa [receive_goal_response, hne] using
          ih (fun x hx => hmiss x (List.mem_cons_of_mem _ hx))
  · intro pending hmiss
    induction pending with
    | nil => rfl
    | cons s tl ih =>
        obtain ⟨i, r, rfl, hne⟩ := hmiss s (List.mem_cons_self s tl)
        simpa [receive_goal_response, hne] using
          ih (fun x hx => hmiss x (List.mem_cons_of_mem _ hx))
  · intro misses fb rest hfb hmiss
    induction misses with
    | nil => simp [receive_feedback, hfb]
    | cons s tl ih =>
        obtain ⟨m, rfl, hne⟩ := hmiss s (List.mem_cons_self s tl)
        simpa [receive_feedback, hne] using
          ih (fun x hx => hmiss x (List.mem_cons_of_mem _ hx))
  · intro pending hmiss
    induction pending with
    | nil => rfl
    | cons s tl ih =>
        obtain ⟨m, rfl, hne⟩ := hmiss s (List.mem_cons_self s tl)
        simpa [receive_feedback, hne] using
          ih (fun x hx => hmiss x (List.mem_cons_of_mem _ hx))

/-- C6 witness: one mismatched reply is discarded and the matching reply
is returned. -/
theorem receive_drain_spec_witness :
    receive_goal_response (1, 1)
        [Except.ok ((2, 2), { accepted := false, stamp := 0 }),
         Except.ok ((1, 1), { accepted := true, stamp := 3 })] =
      .ok (some { accepted := true, stamp := 3 }) :=
  (receive_drain_spec (F := Nat) (1, 1) 0).2.1
    [Except.ok ((2, 2), { accepted := false, stamp := 0 })]
    { accepted := true, stamp := 3 } []
    (by intro s hs; simp at hs; subst hs; exact ⟨(2, 2), _, rfl, by simp⟩)

/-- C9: the first spinner() call on a node returns a Spinner whose map
and listener-list fields are the node's own, and installs the stop-signal
sender; any call on a node whose stop-signal sender is installed hits the
panic branch (embedded as none), so no second Spinner is ever returned. -/
theorem node_spinner_spec (n : NodeState) :
    (n.stop_spin_sender = none →
       ∃ sp n', Node.spinner n = some (sp, n')
         ∧ sp.readers_to_remote_writers = n.readers_to_remote_writers
         ∧ sp.writers_to_remote_readers = n.writers_to_remote_readers
         ∧ sp.status_event_senders = n.status_event_senders
         ∧ n'.stop_spin_sender = some ()
         ∧ Node.spinner n' = none)
    ∧ (n.stop_spin_sender.isSome → Node.spinner n = none) := by
  constructor
  · intro hnone
    refine ⟨⟨n.readers_to_remote_writers, n.writers_to_remote_readers,
             n.status_event_senders⟩,
            { n with stop_spin_sender := some () }, ?_, rfl, rfl, rfl, rfl, ?_⟩
    · simp [Node.spinner, hnone]
    · simp [Node.spinner]
  · intro hsome
    simp [Node.spinner, hsome]

/-- C9 witness. -/
theorem node_spinner_spec_witness :
    ∃ sp n',
      Node.spinner { stop_spin_sender := none, readers_to_remote_writers := [],
                     writers_to_remote_readers := [], status_event_senders := [] } =
        some (sp, n')
      ∧ sp.readers_to_remote_writers = ([] : MatchMap)
      ∧ sp.writers_to_remote_readers = ([] : MatchMap)
      ∧ sp.status_event_senders = ([] : List Chan)
      ∧ n'.stop_spin_sender = some ()
      ∧ Node.spinner n' = none :=
  (node_spinner_spec
      { stop_spin_sender := none, readers_to_remote_writers := [],
        writers_to_remote_readers := [], status_event_senders := [] }).1 rfl

/-! ### Spinner map bookkeeping (claim C7) -/

theorem mem_setInsert_self (s : List GUID) (v : GUID) : v ∈ setInsert s v := by
  by_cases h : v ∈ s <;> simp [setInsert, h]

theorem mem_setInsert_of_mem (s : List GUID) (v x : GUID) (hx : x ∈ s) :
    x ∈ setInsert s v := by
  by_cases h : v ∈ s <;> simp [setInsert, h, hx]

theorem mem_matchedOf_mapInsertVal_self (m : MatchMap) (k v : GUID) :
    v ∈ matchedOf (mapInsertVal m k v) k := by
  induction m with
  | nil => simp [mapInsertVal, matchedOf]
  | cons e rest ih =>
      rcases e with ⟨k', s⟩
      by_cases h : k' = k
      · simp [mapInsertVal, matchedOf, h, mem_setInsert_self]
      · simp [mapInsertVal, matchedOf, h, ih]

theorem mem_matchedOf_mapInsertVal_of_mem (m : MatchMap) (k v j x : GUID)
    (hx : x ∈ matchedOf m j) : x ∈ matchedOf (mapInsertVal m k v) j := by
  induction m with
  | nil => simp [matchedOf] at hx
  | cons e rest ih =>
      rcases e with ⟨k', s⟩
      by_cases hk : k' = k
      · by_cases hj : k' = j
        · subst hk
          subst hj
          simp only [matchedOf, if_pos rfl, if_true] at hx
          simp [mapInsertVal, matchedOf, mem_setInsert_of_mem _ _ _ hx]
        · subst hk
          simp only [matchedOf, if_neg hj] at hx
          simp [mapInsertVal, matchedOf, hj, hx]
      · by_cases hj : k' = j
        · subst hj
          simp only [matchedOf, if_pos rfl, if_true] at hx
          simp [mapInsertVal, matchedOf, hk, hx]
        · simp only [matchedOf, if_neg hj] at hx
          simp [mapInsertVal, matchedOf, hk, hj, ih hx]

theorem not_mem_matchedOf_mapRemoveEverywhere (m : MatchMap) (g j : GUID) :
    g ∉ matchedOf (mapRemoveEverywhere m g) j := by
  induction m with
  | nil => simp [mapRemoveEverywhere, matchedOf]
  | cons e rest ih =>
      rcases e with ⟨k, s⟩
      by_cases h : k = j
      · simp [mapRemoveEverywhere, matchedOf, h]
      · simp [mapRemoveEverywhere, matchedOf, h, ih]

theorem mem_matchedOf_mapRemoveEverywhere_of_ne (m : MatchMap) (g j x : GUID)
    (hne : x ≠ g) (hx : x ∈ matchedOf m j) :
    x ∈ matchedOf (mapRemoveEverywhere m g) j := by
  induction m with
  | nil => simp [matchedOf] at hx
  | cons e rest ih =>
      rcases e with ⟨k, s⟩
      by_cases h : k = j
      · simp only [matchedOf, if_pos h] at hx
        simp [mapRemoveEverywhere, matchedOf, h, hx, hne]
      · simp only [matchedOf, if_neg h] at hx
        simp [mapRemoveEverywhere, matchedOf, h, ih hx]

/-- Processing a sequence of DDS status events in arrival order. -/
def processEvents (s : SpinnerMaps) (evs : List DPStatusEvent) : SpinnerMaps :=
  evs.foldl handleDPStatusEvent s

theorem processEvents_preserves_reader_match (rw lr : GUID) :
    ∀ (evs : List DPStatusEvent) (s : SpinnerMaps),
      rw ∈ matchedOf s.readers_to_remote_writers lr →
      (∀ e ∈ evs, e ≠ DPStatusEvent.writerLost rw) →
      rw ∈ matchedOf (processEvents s evs).readers_to_remote_writers lr := by
  intro evs
  induction evs with
  | nil => intro s hs _; exact hs
  | cons e tl ih =>
      intro s hs hno
      have hne := hno e (List.mem_cons_self e tl)
      have htl := fun x hx => hno x (List.mem_cons_of_mem e hx)
      have hstep : rw ∈ matchedOf (handleDPStatusEvent s e).readers_to_remote_writers lr := by
        cases e with
        | remoteReaderMatched lw rr => exact hs
        | remoteWriterMatched lr' rw' =>
            exact mem_matchedOf_mapInsertVal_of_mem _ _ _ _ _ hs
        | readerLost g => exact hs
        | writerLost g =>
            have hg : g ≠ rw := by intro hgr; exact hne (by rw [hgr])
            exact mem_matchedOf_mapRemoveEverywhere_of_ne _ _ _ _ (fun hr => hg hr.symm) hs
        | other => exact hs
      exact ih (handleDPStatusEvent s e) hstep htl

/-- C7: the spinner's event handling keeps the maps in step with the
transport events.  A RemoteReaderMatched event inserts the remote reader
into writers_to_remote_readers[local_writer] (creating the entry when
absent), RemoteWriterMatched acts symmetrically, ReaderLost removes the
guid from every value set of writers_to_remote_readers, WriterLost
symmetrically; and a matched remote writer stays in
readers_to_remote_writers[local_reader] across any events that are not
the WriterLost for it, and is in no value set after its WriterLost. -/
theorem spinner_event_map_spec (s : SpinnerMaps) (lw rr lr rw g : GUID) :
    (rr ∈ matchedOf
       (handleDPStatusEvent s (.remoteReaderMatched lw rr)).writers_to_remote_readers lw)
    ∧ (rw ∈ matchedOf
       (handleDPStatusEvent s (.remoteWriterMatched lr rw)).readers_to_remote_writers lr)
    ∧ (∀ k, g ∉ matchedOf
       (handleDPStatusEvent s (.readerLost g)).writers_to_remote_readers k)
    ∧ (∀ k, g ∉ matchedOf
       (handleDPStatusEvent s (.writerLost g)).readers_to_remote_writers k)
    ∧ (∀ evs : List DPStatusEvent, (∀ e ∈ evs, e ≠ DPStatusEvent.writerLost rw) →
       rw ∈ matchedOf
         (SpinnerMaps.readers_to_remote_writers
           (processEvents (handleDPStatusEvent s (.remoteWriterMatched lr rw)) evs)) lr) := by
  refine ⟨?_, ?_, ?_, ?_, ?_⟩
  · exact mem_matchedOf_mapInsertVal_self _ _ _
  · exact mem_matchedOf_mapInsertVal_self _ _ _
  · intro k
    exact not_mem_matchedOf_mapRemoveEverywhere _ _ _
  · intro k
    exact not_mem_matchedOf_mapRemoveEverywhere _ _ _
  · intro evs hno
    exact processEvents_preserves_reader_match rw lr evs _
      (mem_matchedOf_mapInsertVal_self _ _ _) hno

/-- C7 witness: a writer matched for reader 3 survives unrelated events. -/
theorem spinner_event_map_spec_witness :
    4 ∈ matchedOf
      (SpinnerMaps.readers_to_remote_writers
        (processEvents
          (handleDPStatusEvent { readers_to_remote_writers := [],
                                 writers_to_remote_readers := [] }
            (.remoteWriterMatched 3 4))
          [DPStatusEvent.writerLost 9, DPStatusEvent.other])) 3 :=
  (spinner_event_map_spec { readers_to_remote_writers := [],
                            writers_to_remote_readers := [] } 1 2 3 4 5).2.2.2.2
    [DPStatusEvent.writerLost 9, DPStatusEvent.other] (by decide)

/-! ### Spinner broadcast (claim C8) -/

theorem trySendUpd_closed (ev : NodeEvent) (c : Chan) :
    (trySendUpd ev c).closed = c.closed := by
  unfold trySendUpd
  split_ifs <;> rfl

theorem getLast?_some_of_lt {α : Type} (l : List α) (i : Nat) (h : i < l.length) :
    ∃ a, l.getLast? = some a := by
  cases hg : l.getLast? with
  | none =>
      have : l = [] := List.getLast?_eq_none_iff.mp hg
      subst this
      simp at h
  | some a => exact ⟨a, rfl⟩

theorem swapRemove_length {α : Type} (l : List α) (i : Nat) (h : i < l.length) :
    (swapRemove l i).length = l.length - 1 := by
  obtain ⟨la, hla⟩ := getLast?_some_of_lt l i h
  simp [swapRemove, hla]

theorem swapRemove_perm {α : Type} (l : List α) (i : Nat) (h : i < l.length) :
    (swapRemove l i).Perm (l.eraseIdx i) := by
  obtain ⟨la, hla⟩ := getLast?_some_of_lt l i h
  have hsw : swapRemove l i = (l.set i la).dropLast := by simp [swapRemove, hla]
  rw [hsw, List.set_eq_take_cons_drop la h, List.eraseIdx_eq_take_drop_succ,
      List.dropLast_append_cons]
  apply List.Perm.append_left
  cases hB : l.drop (i + 1) with
  | nil => simp
  | cons b B =>
      obtain ⟨c, hc⟩ : ∃ c, (b :: B).getLast? = some c :=
        getLast?_some_of_lt (b :: B) 0 (by simp)
      have hlc : l.getLast? = some c := by
        conv_lhs => rw [← List.take_append_drop (i + 1) l]
        rw [List.getLast?_append, hB, hc]
        rfl
      have hlac : la = c := by
        rw [hla] at hlc
        exact Option.some.inj hlc
      have hdec : (b :: B).dropLast ++ [c] = b :: B :=
        List.dropLast_append_getLast? c (Option.mem_def.mpr hc)
      have e1 : (la :: b :: B).dropLast = [c] ++ (b :: B).dropLast := by
        rw [List.dropLast_cons₂, hlac]
        rfl
      rw [e1]
      conv_rhs => rw [← hdec]
      exact List.perm_append_comm

theorem swapRemove_getD_lt {α : Type} (l : List α) (i j : Nat) (d : α)
    (h : i < l.length) (hj : j < i) :
    (swapRemove l i).getD j d = l.getD j d := by
  obtain ⟨la, hla⟩ := getLast?_some_of_lt l i h
  have hsw : swapRemove l i = (l.set i la).dropLast := by simp [swapRemove, hla]
  have hd : j < ((l.set i la).dropLast).length := by
    simp only [List.length_dropLast, List.length_set]
    omega
  rw [hsw, List.getD_eq_getElem _ d hd, List.getD_eq_getElem l d (by omega)]
  simp [List.getElem_set_ne (show i ≠ j by omega)]

theorem swapRemove_getD_self {α : Type} (l : List α) (i : Nat) (d : α)
    (h : i < l.length - 1) :
    (swapRemove l i).getD i d = l.getD (l.length - 1) d := by
  obtain ⟨la, hla⟩ := getLast?_some_of_lt l i (by omega)
  have hne : l ≠ [] := by
    intro he
    subst he
    simp at h
  have hla2 : la = l.getLast hne := by
    have := List.getLast?_eq_getLast_of_ne_nil hne
    rw [hla] at this
    exact Option.some.inj this
  have hsw : swapRemove l i = (l.set i la).dropLast := by simp [swapRemove, hla]
  have hd : i < ((l.set i la).dropLast).length := by
    simp only [List.length_dropLast, List.length_set]
    omega
  rw [hsw, List.getD_eq_getElem _ d hd, List.getD_eq_getElem l d (by omega)]
  rw [List.getElem_dropLast, List.getElem_set_self]
  rw [hla2, List.getLast_eq_getElem]

theorem swapRemove_getD_gt {α : Type} (l : List α) (i j : Nat) (d : α)
    (hij : i < j) (hj : j < l.length - 1) :
    (swapRemove l i).getD j d = l.getD j d := by
  obtain ⟨la, hla⟩ := getLast?_some_of_lt l i (by omega)
  have hsw : swapRemove l i = (l.set i la).dropLast := by simp [swapRemove, hla]
  have hd : j < ((l.set i la).dropLast).length := by
    simp only [List.length_dropLast, List.length_set]
    omega
  rw [hsw, List.getD_eq_getElem _ d hd, List.getD_eq_getElem l d (by omega)]
  simp [List.getElem_set_ne (show i ≠ j by omega)]

theorem eraseIdx_filter_eq {α : Type} (p : α → Bool) (l : List α) (i : Nat) (d : α)
    (h : i < l.length) (hp : p (l.getD i d) = false) :
    (l.eraseIdx i).filter p = l.filter p := by
  rw [List.getD_eq_getElem l d h] at hp
  rw [List.eraseIdx_eq_take_drop_succ]
  conv_rhs => rw [← List.take_append_drop i l, List.drop_eq_getElem_cons h]
  rw [List.filter_append, List.filter_append, List.filter_cons]
  simp [hp]

theorem foldl_swapRemove_perm_filter :
    ∀ (idxs : List Nat) (l : List Chan),
      idxs.Pairwise (· > ·) →
      (∀ j ∈ idxs, j < l.length ∧ (l.getD j default).closed = true) →
      (∀ j, j < l.length → (l.getD j default).closed = true → j ∈ idxs) →
      (List.foldl swapRemove l idxs).Perm (l.filter (fun c => !c.closed)) := by
  intro idxs
  induction idxs with
  | nil =>
      intro l _ _ hcomp
      simp only [List.foldl_nil]
      have hfe : l.filter (fun c => !c.closed) = l := by
        rw [List.filter_eq_self]
        intro a ha
        obtain ⟨j, hj, rfl⟩ := List.getElem_of_mem ha
        cases hc : (l[j]).closed with
        | true =>
            have : j ∈ ([] : List Nat) :=
              hcomp j hj (by rw [List.getD_eq_getElem l default hj, hc])
            simp at this
        | false => simp [hc]
      rw [hfe]
  | cons i idxs ih =>
      intro l hsort hmem hcomp
      obtain ⟨hi, hclosed⟩ := hmem i (List.mem_cons_self i idxs)
      have hgt : ∀ j ∈ idxs, j < i := (List.pairwise_cons.mp hsort).1
      have htail : idxs.Pairwise (· > ·) := (List.pairwise_cons.mp hsort).2
      simp only [List.foldl_cons]
      have hlen : (swapRemove l i).length = l.length - 1 := swapRemove_length l i hi
      have hmem' : ∀ j ∈ idxs,
          j < (swapRemove l i).length ∧ ((swapRemove l i).getD j default).closed = true := by
        intro j hj
        obtain ⟨hjl, hjc⟩ := hmem j (List.mem_cons_of_mem i hj)
        have hji : j < i := hgt j hj
        refine ⟨by omega, ?_⟩
        rw [swapRemove_getD_lt l i j default hi hji]
        exact hjc
      have hcomp' : ∀ j, j < (swapRemove l i).length →
          ((swapRemove l i).getD j default).closed = true → j ∈ idxs := by
        intro j hj hc
        rw [hlen] at hj
        rcases Nat.lt_trichotomy j i with hji | rfl | hij
        · rw [swapRemove_getD_lt l i j default hi hji] at hc
          rcases List.mem_cons.mp (hcomp j (by omega) hc) with rfl | hmemt
          · omega
          · exact hmemt
        · rw [swapRemove_getD_self l j default (by omega)] at hc
          rcases List.mem_cons.mp (hcomp (l.length - 1) (by omega) hc) with heq | hmemt
          · omega
          · have := hgt _ hmemt
            omega
        · rw [swapRemove_getD_gt l i j default hij (by omega)] at hc
          rcases List.mem_cons.mp (hcomp j (by omega) hc) with rfl | hmemt
          · omega
          · have := hgt _ hmemt
            omega
      have h1 := ih (swapRemove l i) htail hmem' hcomp'
      have h2 : ((swapRemove l i).filter (fun c => !c.closed)).Perm
          ((l.eraseIdx i).filter (fun c => !c.closed)) :=
        (swapRemove_perm l i hi).filter _
      have h3 : (l.eraseIdx i).filter (fun c => !c.closed) = l.filter (fun c => !c.closed) :=
        eraseIdx_filter_eq _ l i default hi
          (by show (!(l.getD i default).closed) = false
              rw [hclosed]
              rfl)
      exact h1.trans (h2.trans (by rw [h3]))

/-- C8: a broadcast attempts a non-blocking send on every listener: open
non-full channels get the event appended, a full channel drops the event
and is kept unchanged, a closed channel's attempt leaves it untouched and
the listener is removed (via swap_remove over the descending closed
indices), so the resulting list is a permutation of the updated non-closed
listeners; and each channel created by status_receiver is bounded at
capacity 8 and appended to the listener list. -/
theorem send_status_event_spec (ev : NodeEvent) (senders : List Chan) :
    (send_status_event ev senders).Perm
      ((senders.map (trySendUpd ev)).filter (fun c => !c.closed))
    ∧ (∀ c : Chan, c.closed = false → c.buf.length < c.cap →
        trySendUpd ev c = { c with buf := c.buf ++ [ev] })
    ∧ (∀ c : Chan, c.closed = false → c.cap ≤ c.buf.length → trySendUpd ev c = c)
    ∧ (∀ c : Chan, c.closed = true → trySendUpd ev c = c)
    ∧ (status_receiver senders).2.cap = 8
    ∧ (status_receiver senders).1 = senders ++ [(status_receiver senders).2] := by
  refine ⟨?_, ?_, ?_, ?_, rfl, rfl⟩
  · unfold send_status_event
    apply foldl_swapRemove_perm_filter
    · refine List.pairwise_reverse.mpr ?_
      exact (List.pairwise_lt_range _).filter _
    · intro j hj
      rw [List.mem_reverse] at hj
      unfold closedIdxs at hj
      rw [List.mem_filter, List.mem_range] at hj
      obtain ⟨hjr, hjc⟩ := hj
      have hjm : j < (senders.map (trySendUpd ev)).length := by simpa using hjr
      refine ⟨hjm, ?_⟩
      rw [List.getD_eq_getElem _ default hjm, List.getElem_map, trySendUpd_closed,
          ← List.getD_eq_getElem senders default hjr]
      exact hjc
    · intro j hj hc
      have hjs : j < senders.length := by simpa using hj
      rw [List.mem_reverse]
      unfold closedIdxs
      rw [List.mem_filter, List.mem_range]
      refine ⟨hjs, ?_⟩
      rw [List.getD_eq_getElem _ default hj, List.getElem_map, trySendUpd_closed,
          ← List.getD_eq_getElem senders default hjs] at hc
      exact hc
  · intro c h1 h2
    simp [trySendUpd, h1, h2]
  · intro c h1 h2
    simp [trySendUpd, h1, Nat.not_lt.mpr h2]
  · intro c h1
    simp [trySendUpd, h1]

/-- C8 witness: a closed listener is removed, a full one keeps its buffer
and stays, an open one receives the event; the status_receiver channel is
bounded at 8. -/
theorem send_status_event_spec_witness :
    (send_status_event 7 [{ closed := true, cap := 1, buf := [] },
                          { closed := false, cap := 8, buf := [] }]).Perm
      (([{ closed := true, cap := 1, buf := [] },
         { closed := false, cap := 8, buf := [] }].map (trySendUpd 7)).filter
        (fun c => !c.closed))
    ∧ trySendUpd 7 { closed := false, cap := 8, buf := [] } =
        { closed := false, cap := 8, buf := [7] }
    ∧ trySendUpd 7 { closed := false, cap := 0, buf := [] } =
        { closed := false, cap := 0, buf := [] }
    ∧ (status_receiver []).2.cap = 8 :=
  ⟨(send_status_event_spec 7 _).1,
   (send_status_event_spec 7 [] ).2.1 { closed := false, cap := 8, buf := [] }
     (by decide) (by decide),
   (send_status_event_spec 7 []).2.2.1 { closed := false, cap := 0, buf := [] }
     (by decide) (by decide),
   (send_status_event_spec 7 []).2.2.2.2.1⟩

end Ros2Client
